import Mathlib

/-!
# Verification of the CF streak bot's streak/notification core

Shallow embedding of `src/main.py`. Dates are modelled as ISO strings
(the source stores and compares `YYYY-MM-DD` strings). The wall clock and
timezone database are modelled by an explicit environment `Env`:
`Env.now` is the current POSIX instant, `Env.sysDate t` is the calendar
date of instant `t` on the host system's local clock (Python's
`date.today()` evaluated when `t = now`), and `Env.tzDate z t` is the
calendar date of instant `t` in the IANA zone named `z`
(`datetime.fromtimestamp(t, utc).astimezone(z).date()`).
Python dicts are modelled as association lists (`dictGet` is `dict.get`,
`setAssoc` is `dict.__setitem__` / `setdefault`-then-assign).
-/

set_option autoImplicit false

namespace CFStreakBot

/-- Environment: clock and timezone database, plus the configuration
`DEFAULT_TZ` (`os.getenv("LOCAL_TZ", "Asia/Tashkent")`). -/
structure Env where
  allTimezones : List String
  defaultTz : String
  now : Int
  sysDate : Int → String
  tzDate : String → Int → String

/-- One entry of the Codeforces `user.status` result list
(`{verdict, creationTimeSeconds}`); absent JSON keys are `none`. -/
structure Submission where
  verdict : Option String
  creationTimeSeconds : Option Int
deriving DecidableEq, Repr

/-- Parsed JSON response of the Codeforces `user.status` call. -/
structure CFResponse where
  status : Option String
  result : List Submission
deriving DecidableEq, Repr

/-- `UserRecord` dataclass of `src/main.py` (lines 29-40). `last_notified`
is `None` by default; otherwise a dict from slot label to ISO date. -/
structure UserRecord where
  handle : Option String
  timezone : String
  last_notified : Option (List (String × String))
deriving DecidableEq, Repr

/-- The in-memory `DB` dict, keyed by user-id string. -/
abbrev Db := List (String × UserRecord)

/-- `dict.get k`: first value bound to `k`, if any. -/
def dictGet {α : Type} : List (String × α) → String → Option α
  | [], _ => none
  | (k', v) :: t, k => if k' = k then some v else dictGet t k

/-- `dict[k] = v`: replace the value at `k` in place, or append a new
binding when `k` is absent (Python dicts insert new keys at the end). -/
def setAssoc {α : Type} : List (String × α) → String → α → List (String × α)
  | [], k, v => [(k, v)]
  | (k', v') :: t, k, v =>
    if k' = k then (k, v) :: t else (k', v') :: setAssoc t k v

/-- `UserRecord()` with all defaults (`handle=None`,
`timezone=DEFAULT_TZ`, `last_notified=None`). -/
def defaultRecord (env : Env) : UserRecord :=
  { handle := none, timezone := env.defaultTz, last_notified := none }

/-- Truthiness of the stored handle: `not rec.handle` in Python is true
for `None` and for the empty string. -/
def handleFalsy : Option String → Bool
  | none => true
  | some s => s == ""

/-- Timezone fallback used by `cf_has_solved_today` and
`already_notified_today`: an unknown name resolves to `DEFAULT_TZ`. -/
def resolveTz (env : Env) (name : String) : String :=
  if name ∈ env.allTimezones then name else env.defaultTz

/-- Loop body of `cf_has_solved_today` (lines 89-98): a submission counts
when its verdict is `"OK"`, it carries a timestamp, and that timestamp's
calendar date in the user's zone equals today's local date. -/
def subSolvedToday (env : Env) (tz todayLocal : String) (sub : Submission) : Bool :=
  sub.verdict == some "OK" &&
    match sub.creationTimeSeconds with
    | none => false
    | some ts => env.tzDate tz ts == todayLocal

/-- `cf_has_solved_today` (lines 67-99), with the already-fetched parsed
response as an argument; the network fetch itself is modelled where the
function is called (the sweep's feed oracle). -/
def cf_has_solved_today (env : Env) (handle user_tz_name : String)
    (resp : CFResponse) : Bool :=
  if handle = "" then false
  else
    let tz := resolveTz env user_tz_name
    let todayLocal := env.tzDate tz env.now
    if resp.status ≠ some "OK" then false
    else resp.result.any (subSolvedToday env tz todayLocal)

/-- The record update performed by `mark_notified` (lines 107-112):
`rec.last_notified[slot] = date.today().isoformat()`. Note
`date.today()` is the host system's local date (`sysDate`), not a date
in `DEFAULT_TZ` nor in the user's zone. -/
def markRec (env : Env) (r : UserRecord) (slot : String) : UserRecord :=
  { r with last_notified := some (setAssoc (r.last_notified.getD []) slot (env.sysDate env.now)) }

/-- `mark_notified(user_id, slot)` (lines 107-112): get-or-create the
record (`DB.setdefault`), then write today's host-clock date for `slot`. -/
def mark_notified (env : Env) (db : Db) (user_id slot : String) : Db :=
  setAssoc db user_id
    (markRec env ((dictGet db user_id).getD (defaultRecord env)) slot)

/-- Record-level part of `already_notified_today` (lines 119-125): the
stored date for `slot` equals today's date in the user's resolved zone. -/
def recNotifiedToday (env : Env) (r : UserRecord) (slot user_tz_name : String) : Bool :=
  match r.last_notified with
  | none => false
  | some ln =>
    let tz := resolveTz env user_tz_name
    dictGet ln slot == some (env.tzDate tz env.now)

/-- `already_notified_today(user_id, slot, user_tz_name)` (lines 115-125). -/
def already_notified_today (env : Env) (db : Db) (user_id slot user_tz_name : String) : Bool :=
  match dictGet db user_id with
  | none => false
  | some r => recNotifiedToday env r slot user_tz_name

/-- Outcome of the `user.status` network fetch: a parsed response, or a
raised exception (timeout, malformed body, ...). -/
inductive FeedResult where
  | ok (resp : CFResponse)
  | err
deriving DecidableEq

/-- Externally visible actions of one sweep, tagged with the user id they
were performed for: the feed request issued for a user's handle, a
successfully delivered reminder, and a delivery attempt that raised. -/
inductive Action where
  | feedReq (uid handle : String)
  | msgSent (uid slot : String)
  | msgFailed (uid slot : String)
deriving DecidableEq, Repr

/-- The user a sweep action was performed for. -/
def actUid : Action → String
  | .feedReq u _ => u
  | .msgSent u _ => u
  | .msgFailed u _ => u

/-- Lines 216-219 of `send_reminders`: evaluate `cf_has_solved_today`,
treating a raised exception as `False`. -/
def okTodayCheck (env : Env) (feed : String → FeedResult) (handle tzName : String) : Bool :=
  match feed handle with
  | .err => false
  | .ok resp => cf_has_solved_today env handle tzName resp

/-- Body of the `for uid, rec in DB.items()` loop of `send_reminders`
(lines 209-235), threading the mutable `DB` and the emitted actions. -/
def sweepStep (env : Env) (feed : String → FeedResult) (deliver : String → Bool)
    (slot : String) (st : Db × List Action) (e : String × UserRecord) :
    Db × List Action :=
  if handleFalsy e.2.handle then st
  else if already_notified_today env st.1 e.1 slot e.2.timezone then st
  else if okTodayCheck env feed (e.2.handle.getD "") e.2.timezone then
    (mark_notified env st.1 e.1 slot,
      st.2 ++ [Action.feedReq e.1 (e.2.handle.getD "")])
  else if deliver e.1 then
    (mark_notified env st.1 e.1 slot,
      st.2 ++ [Action.feedReq e.1 (e.2.handle.getD ""), Action.msgSent e.1 slot])
  else
    (st.1,
      st.2 ++ [Action.feedReq e.1 (e.2.handle.getD ""), Action.msgFailed e.1 slot])

/-- `send_reminders(app, slot)` (lines 207-235): one sweep over all user
records, returning the final `DB` and the actions performed. `deliver`
tells whether `bot.send_message` succeeds for a given chat id. -/
def send_reminders (env : Env) (feed : String → FeedResult) (deliver : String → Bool)
    (db : Db) (slot : String) : Db × List Action :=
  List.foldl (sweepStep env feed deliver slot) (db, []) db

/-- Replies of the `/settz` command handler. -/
inductive Reply where
  | usage
  | invalidTz
  | savedTz (name : String)
deriving DecidableEq, Repr

/-- `cmd_settz` (lines 164-178): no argument replies with usage, an
unknown zone name is rejected, a valid one is stored on the
get-or-created record. -/
def cmd_settz (env : Env) (db : Db) (uid : String) (args : List String) : Db × Reply :=
  match args with
  | [] => (db, Reply.usage)
  | tz_name :: _ =>
    if tz_name ∈ env.allTimezones then
      let r := (dictGet db uid).getD (defaultRecord env)
      (setAssoc db uid { r with timezone := tz_name }, Reply.savedTz tz_name)
    else (db, Reply.invalidTz)

/-- On-disk JSON shape of one record, as read back by `load_db`: each
field is optional because `dict.get` is used with defaults. -/
structure RawRecord where
  handle : Option String
  timezone : Option String
  last_notified : Option (List (String × String))
deriving DecidableEq, Repr

/-- `UserRecord.to_dict` (lines 36-40): serialize, normalizing a `None`
`last_notified` to the empty dict. -/
def to_dict (r : UserRecord) : RawRecord :=
  { handle := r.handle, timezone := some r.timezone,
    last_notified := some (r.last_notified.getD []) }

/-- `save_db` (lines 58-60): dump every record through `to_dict`. -/
def save_db (db : Db) : List (String × RawRecord) :=
  db.map fun e => (e.1, to_dict e.2)

/-- Per-record part of `load_db` (lines 49-54): rebuild one record,
defaulting a missing timezone to `DEFAULT_TZ` and a missing
`last_notified` to `{}`. -/
def loadRec (env : Env) (v : RawRecord) : UserRecord :=
  { handle := v.handle,
    timezone := v.timezone.getD env.defaultTz,
    last_notified := some (v.last_notified.getD []) }

/-- `load_db` (lines 43-55). -/
def load_db (env : Env) (raw : List (String × RawRecord)) : Db :=
  raw.map fun e => (e.1, loadRec env e.2)

/-- Observer: the date stored in a record for a slot (`None`-safe). -/
def lnGet (r : UserRecord) (slot : String) : Option String :=
  dictGet (r.last_notified.getD []) slot

/-- Observer: the date stored for `(uid, slot)` in a database. -/
def dbLnGet (db : Db) (uid slot : String) : Option String :=
  match dictGet db uid with
  | none => none
  | some r => lnGet r slot

/-! ## Association-list lemmas -/

theorem dictGet_setAssoc_self {α : Type} (k : String) (v : α) :
    ∀ xs : List (String × α), dictGet (setAssoc xs k v) k = some v := by
  intro xs
  induction xs with
  | nil => simp [setAssoc, dictGet]
  | cons e t ih =>
    obtain ⟨k', v'⟩ := e
    by_cases h : k' = k
    · simp [setAssoc, h, dictGet]
    · simp [setAssoc, h, dictGet, ih]

theorem dictGet_setAssoc_ne {α : Type} (k k' : String) (v : α) (h : k' ≠ k) :
    ∀ xs : List (String × α), dictGet (setAssoc xs k v) k' = dictGet xs k' := by
  intro xs
  induction xs with
  | nil => simp [setAssoc, dictGet, Ne.symm h]
  | cons e t ih =>
    obtain ⟨k₀, v₀⟩ := e
    by_cases hk : k₀ = k
    · subst hk
      simp [setAssoc, dictGet, Ne.symm h]
    · simp [setAssoc, hk, dictGet, ih]

theorem keys_setAssoc {α : Type} (k : String) (v : α) :
    ∀ xs : List (String × α), k ∈ xs.map Prod.fst →
      (setAssoc xs k v).map Prod.fst = xs.map Prod.fst := by
  intro xs
  induction xs with
  | nil => simp
  | cons e t ih =>
    intro hmem
    obtain ⟨k', v'⟩ := e
    by_cases h : k' = k
    · simp [setAssoc, h]
    · have ht : k ∈ t.map Prod.fst := by
        rw [List.map_cons] at hmem
        rcases List.mem_cons.mp hmem with h1 | h1
        · exact absurd h1.symm h
        · exact h1
      simp [setAssoc, h, ih ht]

theorem dictGet_map {α β : Type} (f : α → β) (k : String) :
    ∀ xs : List (String × α),
      dictGet (xs.map fun e => (e.1, f e.2)) k = (dictGet xs k).map f := by
  intro xs
  induction xs with
  | nil => simp [dictGet]
  | cons e t ih =>
    by_cases h : e.1 = k <;> simp [dictGet, h, ih]

theorem dictGet_split {α : Type} {k : String} {v : α} :
    ∀ {xs : List (String × α)}, dictGet xs k = some v →
      ∃ m₁ m₂, xs = m₁ ++ (k, v) :: m₂ ∧ ∀ e ∈ m₁, e.1 ≠ k := by
  intro xs
  induction xs with
  | nil => intro h; simp [dictGet] at h
  | cons e t ih =>
    intro h
    obtain ⟨k', v'⟩ := e
    by_cases hk : k' = k
    · subst hk
      simp [dictGet] at h
      exact ⟨[], t, by simp [h], by simp⟩
    · rw [dictGet, if_neg hk] at h
      obtain ⟨m₁, m₂, rfl, hne⟩ := ih h
      refine ⟨(k', v') :: m₁, m₂, rfl, ?_⟩
      intro e he
      rcases List.mem_cons.mp he with h1 | h1
      · simpa [h1] using hk
      · exact hne e h1

theorem dictGet_append_not_mem {α : Type} (k : String) :
    ∀ m₁ m₂ : List (String × α), (∀ e ∈ m₁, e.1 ≠ k) →
      dictGet (m₁ ++ m₂) k = dictGet m₂ k := by
  intro m₁
  induction m₁ with
  | nil => intro m₂ _; rfl
  | cons e t ih =>
    intro m₂ hne
    obtain ⟨k', v'⟩ := e
    rw [List.cons_append, dictGet, if_neg (hne (k', v') (List.mem_cons_self _ _))]
    exact ih m₂ (fun x hx => hne x (List.mem_cons_of_mem _ hx))

theorem dictGet_unique {α : Type} {k : String} {v : α} :
    ∀ {xs : List (String × α)}, (xs.map Prod.fst).count k ≤ 1 →
      dictGet xs k = some v → ∀ r : α, (k, r) ∈ xs → r = v := by
  intro xs
  induction xs with
  | nil => intro _ h; simp [dictGet] at h
  | cons e t ih =>
    intro hc hget r hmem
    obtain ⟨k', v'⟩ := e
    by_cases hk : k' = k
    · rw [dictGet, if_pos hk] at hget
      have hv : v' = v := by simpa using hget
      have hzero : (t.map Prod.fst).count k = 0 := by
        rw [List.map_cons, hk, List.count_cons_self] at hc
        omega
      have hnot : k ∉ t.map Prod.fst := List.count_eq_zero.mp hzero
      rcases List.mem_cons.mp hmem with h1 | h1
      · have h2 : r = v' := congrArg Prod.snd h1
        rw [h2, hv]
      · exact absurd (List.mem_map.mpr ⟨(k, r), h1, rfl⟩) hnot
    · rw [dictGet, if_neg hk] at hget
      have hc' : (t.map Prod.fst).count k ≤ 1 := by
        rw [List.map_cons, List.count_cons_of_ne (fun hh => hk hh.symm)] at hc
        exact hc
      rcases List.mem_cons.mp hmem with h1 | h1
      · exact absurd (congrArg Prod.fst h1) (fun hh => hk hh.symm)
      · exact ih hc' hget r h1

/-! ## Lemmas about `mark_notified` and `already_notified_today` -/

theorem mark_notified_eq {env : Env} {db : Db} {uid : String} {r : UserRecord}
    (slot : String) (h : dictGet db uid = some r) :
    mark_notified env db uid slot = setAssoc db uid (markRec env r slot) := by
  simp [mark_notified, h]

theorem dictGet_mark_self (env : Env) (db : Db) (uid slot : String) :
    dictGet (mark_notified env db uid slot) uid
      = some (markRec env ((dictGet db uid).getD (defaultRecord env)) slot) := by
  simp [mark_notified, dictGet_setAssoc_self]

theorem dictGet_mark_ne (env : Env) (db : Db) (uid slot uid' : String) (h : uid' ≠ uid) :
    dictGet (mark_notified env db uid slot) uid' = dictGet db uid' := by
  simp [mark_notified, dictGet_setAssoc_ne _ _ _ h]

theorem keys_mark (env : Env) (db : Db) (uid slot : String)
    (h : uid ∈ db.map Prod.fst) :
    (mark_notified env db uid slot).map Prod.fst = db.map Prod.fst := by
  simp [mark_notified, keys_setAssoc _ _ _ h]

theorem already_of_dictGet {env : Env} {db : Db} {uid : String} {r : UserRecord}
    (slot tzName : String) (h : dictGet db uid = some r) :
    already_notified_today env db uid slot tzName = recNotifiedToday env r slot tzName := by
  simp [already_notified_today, h]

theorem recNotifiedToday_markRec (env : Env) (r : UserRecord) (slot tzName : String)
    (hagree : env.sysDate env.now = env.tzDate (resolveTz env tzName) env.now) :
    recNotifiedToday env (markRec env r slot) slot tzName = true := by
  simp [recNotifiedToday, markRec, dictGet_setAssoc_self, hagree]

/-! ## Lemmas about one sweep step -/

section Sweep

variable (env : Env) (feed : String → FeedResult) (deliver : String → Bool) (slot : String)

theorem sweepStep_skip_handle (st : Db × List Action) (k : String) (r : UserRecord)
    (h : handleFalsy r.handle = true) :
    sweepStep env feed deliver slot st (k, r) = st := by
  simp [sweepStep, h]

theorem sweepStep_skip_already (st : Db × List Action) (k : String) (r : UserRecord)
    (h1 : handleFalsy r.handle = false)
    (h2 : already_notified_today env st.1 k slot r.timezone = true) :
    sweepStep env feed deliver slot st (k, r) = st := by
  simp [sweepStep, h1, h2]

theorem sweepStep_solved (st : Db × List Action) (k : String) (r : UserRecord)
    (h1 : handleFalsy r.handle = false)
    (h2 : already_notified_today env st.1 k slot r.timezone = false)
    (h3 : okTodayCheck env feed (r.handle.getD "") r.timezone = true) :
    sweepStep env feed deliver slot st (k, r)
      = (mark_notified env st.1 k slot, st.2 ++ [Action.feedReq k (r.handle.getD "")]) := by
  simp [sweepStep, h1, h2, h3]

theorem sweepStep_sent (st : Db × List Action) (k : String) (r : UserRecord)
    (h1 : handleFalsy r.handle = false)
    (h2 : already_notified_today env st.1 k slot r.timezone = false)
    (h3 : okTodayCheck env feed (r.handle.getD "") r.timezone = false)
    (h4 : deliver k = true) :
    sweepStep env feed deliver slot st (k, r)
      = (mark_notified env st.1 k slot,
          st.2 ++ [Action.feedReq k (r.handle.getD ""), Action.msgSent k slot]) := by
  simp [sweepStep, h1, h2, h3, h4]

theorem sweepStep_failed (st : Db × List Action) (k : String) (r : UserRecord)
    (h1 : handleFalsy r.handle = false)
    (h2 : already_notified_today env st.1 k slot r.timezone = false)
    (h3 : okTodayCheck env feed (r.handle.getD "") r.timezone = false)
    (h4 : deliver k = false) :
    sweepStep env feed deliver slot st (k, r)
      = (st.1, st.2 ++ [Action.feedReq k (r.handle.getD ""), Action.msgFailed k slot]) := by
  simp [sweepStep, h1, h2, h3, h4]

theorem sweepStep_fst_other (st : Db × List Action) (k : String) (r : UserRecord)
    (uid : String) (hk : k ≠ uid) :
    dictGet (sweepStep env feed deliver slot st (k, r)).1 uid = dictGet st.1 uid := by
  cases h1 : handleFalsy r.handle
  · cases h2 : already_notified_today env st.1 k slot r.timezone
    · cases h3 : okTodayCheck env feed (r.handle.getD "") r.timezone
      · cases h4 : deliver k
        · rw [sweepStep_failed env feed deliver slot st k r h1 h2 h3 h4]
        · rw [sweepStep_sent env feed deliver slot st k r h1 h2 h3 h4]
          exact dictGet_mark_ne env st.1 k slot uid (Ne.symm hk)
      · rw [sweepStep_solved env feed deliver slot st k r h1 h2 h3]
        exact dictGet_mark_ne env st.1 k slot uid (Ne.symm hk)
    · rw [sweepStep_skip_already env feed deliver slot st k r h1 h2]
  · rw [sweepStep_skip_handle env feed deliver slot st k r h1]

theorem sweepStep_acts_sub (st : Db × List Action) (e : String × UserRecord)
    (a : Action) (h : a ∈ st.2) :
    a ∈ (sweepStep env feed deliver slot st e).2 := by
  simp only [sweepStep]
  repeat' split
  all_goals simp [h]

theorem sweepStep_acts_tag (st : Db × List Action) (k : String) (r : UserRecord)
    (a : Action) (h : a ∈ (sweepStep env feed deliver slot st (k, r)).2) :
    a ∈ st.2 ∨ actUid a = k := by
  simp only [sweepStep] at h
  split at h
  · exact Or.inl h
  · split at h
    · exact Or.inl h
    · split at h
      · rcases List.mem_append.mp h with h5 | h5
        · exact Or.inl h5
        · right; simp at h5; rw [h5]; rfl
      · split at h
        · rcases List.mem_append.mp h with h5 | h5
          · exact Or.inl h5
          · right
            rcases List.mem_cons.mp h5 with h6 | h6
            · rw [h6]; rfl
            · simp at h6; rw [h6]; rfl
        · rcases List.mem_append.mp h with h5 | h5
          · exact Or.inl h5
          · right
            rcases List.mem_cons.mp h5 with h6 | h6
            · rw [h6]; rfl
            · simp at h6; rw [h6]; rfl

theorem sweepStep_keys (st : Db × List Action) (k : String) (r : UserRecord)
    (h : k ∈ st.1.map Prod.fst) :
    (sweepStep env feed deliver slot st (k, r)).1.map Prod.fst = st.1.map Prod.fst := by
  cases h1 : handleFalsy r.handle
  · cases h2 : already_notified_today env st.1 k slot r.timezone
    · cases h3 : okTodayCheck env feed (r.handle.getD "") r.timezone
      · cases h4 : deliver k
        · rw [sweepStep_failed env feed deliver slot st k r h1 h2 h3 h4]
        · rw [sweepStep_sent env feed deliver slot st k r h1 h2 h3 h4]
          exact keys_mark env st.1 k slot h
      · rw [sweepStep_solved env feed deliver slot st k r h1 h2 h3]
        exact keys_mark env st.1 k slot h
    · rw [sweepStep_skip_already env feed deliver slot st k r h1 h2]
  · rw [sweepStep_skip_handle env feed deliver slot st k r h1]

/-! ## Lemmas about a whole sweep (the fold over `DB.items()`) -/

theorem sweepFold_fst_other (uid : String) :
    ∀ (entries : List (String × UserRecord)) (st : Db × List Action),
      (∀ e ∈ entries, e.1 ≠ uid) →
      dictGet (List.foldl (sweepStep env feed deliver slot) st entries).1 uid
        = dictGet st.1 uid := by
  intro entries
  induction entries with
  | nil => intro st _; rfl
  | cons e t ih =>
    intro st hne
    rw [List.foldl_cons]
    rw [ih _ (fun x hx => hne x (List.mem_cons_of_mem e hx))]
    obtain ⟨k, r⟩ := e
    exact sweepStep_fst_other env feed deliver slot st k r uid
      (hne (k, r) (List.mem_cons_self _ _))

theorem sweepFold_acts_sub :
    ∀ (entries : List (String × UserRecord)) (st : Db × List Action) (a : Action),
      a ∈ st.2 → a ∈ (List.foldl (sweepStep env feed deliver slot) st entries).2 := by
  intro entries
  induction entries with
  | nil => intro st a h; exact h
  | cons e t ih =>
    intro st a h
    rw [List.foldl_cons]
    exact ih _ a (sweepStep_acts_sub env feed deliver slot st e a h)

theorem sweepFold_acts_tag (uid : String) :
    ∀ (entries : List (String × UserRecord)) (st : Db × List Action) (a : Action),
      (∀ e ∈ entries, e.1 ≠ uid) →
      a ∈ (List.foldl (sweepStep env feed deliver slot) st entries).2 →
      a ∈ st.2 ∨ actUid a ≠ uid := by
  intro entries
  induction entries with
  | nil => intro st a _ h; exact Or.inl h
  | cons e t ih =>
    intro st a hne h
    rw [List.foldl_cons] at h
    rcases ih _ a (fun x hx => hne x (List.mem_cons_of_mem e hx)) h with h1 | h1
    · obtain ⟨k, r⟩ := e
      rcases sweepStep_acts_tag env feed deliver slot st k r a h1 with h2 | h2
      · exact Or.inl h2
      · exact Or.inr (by rw [h2]; exact hne (k, r) (List.mem_cons_self _ _))
    · exact Or.inr h1

theorem sweepFold_keys :
    ∀ (entries : List (String × UserRecord)) (st : Db × List Action),
      (∀ e ∈ entries, e.1 ∈ st.1.map Prod.fst) →
      (List.foldl (sweepStep env feed deliver slot) st entries).1.map Prod.fst
        = st.1.map Prod.fst := by
  intro entries
  induction entries with
  | nil => intro st _; rfl
  | cons e t ih =>
    intro st hmem
    rw [List.foldl_cons]
    obtain ⟨k, r⟩ := e
    have hstep := sweepStep_keys env feed deliver slot st k r
      (hmem (k, r) (List.mem_cons_self _ _))
    have h' : ∀ x ∈ t, x.1 ∈ (sweepStep env feed deliver slot st (k, r)).1.map Prod.fst := by
      intro x hx
      rw [hstep]
      exact hmem x (List.mem_cons_of_mem _ hx)
    rw [ih _ h', hstep]

/-- If every `uid` entry of the iterated list carries the snapshot `r₀` and
the sweep's per-user guards skip `r₀` (no handle, or already notified
today), then the sweep leaves `uid`'s stored record alone and performs no
action for `uid`. -/
theorem sweepFold_inert (uid : String) (r₀ : UserRecord)
    (hskip : handleFalsy r₀.handle = true ∨ recNotifiedToday env r₀ slot r₀.timezone = true) :
    ∀ (entries : List (String × UserRecord)) (st : Db × List Action),
      (∀ r, (uid, r) ∈ entries → r = r₀) →
      dictGet st.1 uid = some r₀ →
      dictGet (List.foldl (sweepStep env feed deliver slot) st entries).1 uid = some r₀
      ∧ ∀ a ∈ (List.foldl (sweepStep env feed deliver slot) st entries).2,
          a ∈ st.2 ∨ actUid a ≠ uid := by
  intro entries
  induction entries with
  | nil => intro st _ hst; exact ⟨hst, fun a ha => Or.inl ha⟩
  | cons e t ih =>
    intro st hrec hst
    obtain ⟨k, r⟩ := e
    rw [List.foldl_cons]
    by_cases hk : k = uid
    · subst hk
      have hr : r = r₀ := hrec r (List.mem_cons_self _ _)
      have hnoop : sweepStep env feed deliver slot st (k, r) = st := by
        cases hhf : handleFalsy r.handle
        · rcases hskip with h1 | h2
          · rw [hr, h1] at hhf; cases hhf
          · refine sweepStep_skip_already env feed deliver slot st k r hhf ?_
            rw [hr]
            exact (already_of_dictGet slot r₀.timezone hst).trans h2
        · exact sweepStep_skip_handle env feed deliver slot st k r hhf
      rw [hnoop]
      exact ih st (fun r' hr' => hrec r' (List.mem_cons_of_mem _ hr')) hst
    · have h1 := sweepStep_fst_other env feed deliver slot st k r uid hk
      obtain ⟨ih1, ih2⟩ := ih (sweepStep env feed deliver slot st (k, r))
        (fun r' hr' => hrec r' (List.mem_cons_of_mem _ hr')) (h1.trans hst)
      refine ⟨ih1, ?_⟩
      intro a ha
      rcases ih2 a ha with h2 | h2
      · rcases sweepStep_acts_tag env feed deliver slot st k r a h2 with h3 | h3
        · exact Or.inl h3
        · exact Or.inr (by rw [h3]; exact hk)
      · exact Or.inr h2

/-- A user with a usable handle who is not yet marked for today, and whom
the feed reports unsolved, gets a delivery attempt that succeeds when the
messenger works: the sweep emits `msgSent` for them. -/
theorem sweep_sends (db : Db) (uid : String) (r₀ : UserRecord)
    (hlook : dictGet db uid = some r₀)
    (hh : handleFalsy r₀.handle = false)
    (hnot : recNotifiedToday env r₀ slot r₀.timezone = false)
    (hun : okTodayCheck env feed (r₀.handle.getD "") r₀.timezone = false)
    (hd : deliver uid = true) :
    Action.msgSent uid slot ∈ (send_reminders env feed deliver db slot).2 := by
  obtain ⟨m₁, m₂, rfl, hne⟩ := dictGet_split hlook
  unfold send_reminders
  rw [List.foldl_append, List.foldl_cons]
  have hget1 : dictGet (List.foldl (sweepStep env feed deliver slot)
      (m₁ ++ (uid, r₀) :: m₂, ([] : List Action)) m₁).1 uid = some r₀ := by
    rw [sweepFold_fst_other env feed deliver slot uid m₁ _ hne]
    exact hlook
  have halready : already_notified_today env
      (List.foldl (sweepStep env feed deliver slot)
        (m₁ ++ (uid, r₀) :: m₂, ([] : List Action)) m₁).1 uid slot r₀.timezone = false := by
    rw [already_of_dictGet slot r₀.timezone hget1]
    exact hnot
  rw [sweepStep_sent env feed deliver slot _ uid r₀ hh halready hun hd]
  apply sweepFold_acts_sub
  simp

end Sweep

/-! ## Concrete fixtures

The POSIX instants below: 1704135600 is 2024-01-01T19:00Z, the moment
Asia/Tashkent (UTC+5) enters 2024-01-02; 1704153600 is 2024-01-02T00:00Z;
1704139200 is 2024-01-01T20:00Z, i.e. already 2024-01-02 01:00 in
Tashkent while the UTC host clock still shows 2024-01-01. -/

/-- Host clock running in UTC, `DEFAULT_TZ = "Asia/Tashkent"` (the
source's hardcoded fallback), frozen at 2024-01-01 20:00 UTC. -/
def envUtcTk : Env :=
  { allTimezones := ["UTC", "Asia/Tashkent"]
    defaultTz := "Asia/Tashkent"
    now := 1704139200
    sysDate := fun t => if t < 1704153600 then "2024-01-01" else "2024-01-02"
    tzDate := fun z t =>
      if z = "Asia/Tashkent" then
        (if t < 1704135600 then "2024-01-01" else "2024-01-02")
      else
        (if t < 1704153600 then "2024-01-01" else "2024-01-02") }

/-- Degenerate environment in which the host clock and every zone agree
on the calendar date. -/
def envSame : Env :=
  { allTimezones := ["UTC"]
    defaultTz := "UTC"
    now := 100
    sysDate := fun _ => "2024-01-01"
    tzDate := fun _ _ => "2024-01-01" }

/-- Feed oracle: well-formed `OK` response with no submissions. -/
def feedNone : String → FeedResult :=
  fun _ => .ok { status := some "OK", result := [] }

/-- Feed oracle: the request raises (timeout / malformed body). -/
def feedErr : String → FeedResult :=
  fun _ => .err

/-- Feed oracle: one accepted submission at instant 50. -/
def feedAc : String → FeedResult :=
  fun _ => .ok { status := some "OK",
                 result := [{ verdict := some "OK", creationTimeSeconds := some 50 }] }

/-- Messenger that always delivers. -/
def deliverAll : String → Bool := fun _ => true

/-- Messenger that always raises. -/
def deliverNone : String → Bool := fun _ => false

/-- A tracked user in Asia/Tashkent with no reminder history. -/
def recTk : UserRecord :=
  { handle := some "alice", timezone := "Asia/Tashkent", last_notified := none }

/-- A tracked user in UTC with no reminder history. -/
def recUtc : UserRecord :=
  { handle := some "alice", timezone := "UTC", last_notified := none }

/-- A placeholder record without a handle. -/
def recNoHandle : UserRecord :=
  { handle := none, timezone := "UTC", last_notified := none }

/-- Feed response holding a single accepted submission at
2024-01-01T19:10Z: still 2024-01-01 in UTC, already 2024-01-02 in
Asia/Tashkent. -/
def respBoundary : CFResponse :=
  { status := some "OK",
    result := [{ verdict := some "OK", creationTimeSeconds := some 1704136200 }] }

/-! ## The claims -/

/-- C1: the spec claims two consecutive sweeps for the same slot on the
same day send at most one reminder to any user. The code violates this:
`mark_notified` stores `date.today()` (host clock, here 2024-01-01)
while `already_notified_today` compares with today in the user's zone
(Asia/Tashkent, already 2024-01-02), so the second sweep is not
suppressed and the unsolved user "7" is messaged by both sweeps. -/
theorem c1_duplicate_reminders :
    Action.msgSent "7" "08:00"
        ∈ (send_reminders envUtcTk feedNone deliverAll [("7", recTk)] "08:00").2
    ∧ Action.msgSent "7" "08:00"
        ∈ (send_reminders envUtcTk feedNone deliverAll
            (send_reminders envUtcTk feedNone deliverAll [("7", recTk)] "08:00").1
            "08:00").2 := by
  constructor <;> decide

/-- C2, counterexample: immediately after `mark_notified`, on the same
day and with no time passing, `already_notified_today` still answers
`false` when the user's zone (Asia/Tashkent) is already on the next
calendar date relative to the host clock — the claim asserts `true` for
every timezone name. -/
theorem c2_counterexample :
    already_notified_today envUtcTk
      (mark_notified envUtcTk [] "u" "08:00") "u" "08:00" "Asia/Tashkent" = false := by
  decide

/-- C2 (amended): immediately after `mark_notified(u, s)`,
`already_notified_today(u, s, tz)` returns `true` provided the host
clock's current date equals the current date in the resolved `tz`
(without that agreement it can return `false`, see the counterexample);
and in a state whose record stores no date for `(u, s)` it returns
`false`. -/
theorem c2_mark_then_check (env : Env) (db : Db) (uid slot tzName : String) :
    (env.sysDate env.now = env.tzDate (resolveTz env tzName) env.now →
      already_notified_today env (mark_notified env db uid slot) uid slot tzName = true)
    ∧ ((∀ r, dictGet db uid = some r → lnGet r slot = none) →
      already_notified_today env db uid slot tzName = false) := by
  constructor
  · intro hagree
    rw [already_of_dictGet slot tzName (dictGet_mark_self env db uid slot)]
    exact recNotifiedToday_markRec env _ slot tzName hagree
  · intro hfresh
    cases hget : dictGet db uid with
    | none => simp [already_notified_today, hget]
    | some r =>
      have hln := hfresh r hget
      rw [lnGet] at hln
      simp only [already_notified_today, hget]
      cases hlnm : r.last_notified with
      | none => simp [recNotifiedToday, hlnm]
      | some ln =>
        rw [hlnm] at hln
        simp only [Option.getD] at hln
        simp [recNotifiedToday, hlnm, hln]

/-- C2 witness: with host and user zone on the same date the amended
property evaluates as stated at a concrete input. -/
theorem c2_mark_then_check_witness :
    already_notified_today envSame
      (mark_notified envSame [] "u" "08:00") "u" "08:00" "UTC" = true
    ∧ already_notified_today envSame [] "u" "08:00" "UTC" = false :=
  ⟨(c2_mark_then_check envSame [] "u" "08:00" "UTC").1 (by decide),
   (c2_mark_then_check envSame [] "u" "08:00" "UTC").2 (by intro r hr; cases hr)⟩

/-- C3, counterexample: `mark_notified` stores 2024-01-01 — the host
clock's date — although the current date in the reference schedule zone
(`DEFAULT_TZ = "Asia/Tashkent"`) is 2024-01-02; the claim says the
stored date is the reference-zone date. -/
theorem c3_counterexample :
    dbLnGet (mark_notified envUtcTk [] "u" "08:00") "u" "08:00" = some "2024-01-01"
    ∧ envUtcTk.tzDate envUtcTk.defaultTz envUtcTk.now = "2024-01-02" := by
  constructor <;> decide

/-- C3 (amended): `mark_notified(u, s)` sets `lastNotified[s]` to the
current calendar date of the host system's local clock
(`date.today()`), which need not be the date in the configured default
(reference) zone. -/
theorem c3_mark_stores_host_date (env : Env) (db : Db) (uid slot : String) :
    dbLnGet (mark_notified env db uid slot) uid slot = some (env.sysDate env.now) := by
  simp [dbLnGet, dictGet_mark_self, lnGet, markRec, dictGet_setAssoc_self]

/-- Per-submission check in terms of plain equalities. -/
theorem subSolvedToday_iff (env : Env) (tz today : String) (sub : Submission) :
    subSolvedToday env tz today sub = true ↔
      sub.verdict = some "OK" ∧ ∃ ts, sub.creationTimeSeconds = some ts ∧
        env.tzDate tz ts = today := by
  obtain ⟨v, cts⟩ := sub
  cases cts <;> simp [subSolvedToday]

/-- C4: for a non-empty handle, `cf_has_solved_today` answers `true`
exactly when the response has status `OK` and some returned submission
has verdict `OK`, carries a timestamp, and that UTC instant converted to
the user's resolved zone falls on today's local date (so a submission
made "yesterday in UTC but today locally" counts — see the witness). -/
theorem c4_solved_today_iff (env : Env) (handle tzName : String) (resp : CFResponse)
    (hh : handle ≠ "") :
    cf_has_solved_today env handle tzName resp = true ↔
      resp.status = some "OK" ∧ ∃ sub ∈ resp.result, sub.verdict = some "OK" ∧
        ∃ ts, sub.creationTimeSeconds = some ts ∧
          env.tzDate (resolveTz env tzName) ts
            = env.tzDate (resolveTz env tzName) env.now := by
  unfold cf_has_solved_today
  rw [if_neg hh]
  by_cases hs : resp.status = some "OK"
  · rw [if_neg (by simp [hs])]
    simp [List.any_eq_true, subSolvedToday_iff, hs]
  · rw [if_pos (by simp [hs])]
    simp [hs]

/-- C5, counterexample: the spec claims that after a user is found
solved (and marked) during the 08:00 sweep, every later same-day sweep
for any slot is suppressed for that user. In the code `mark_notified`
writes only the current slot's key, so the later 12:00 sweep is not
suppressed: it re-queries the feed and — the feed now erroring — even
delivers a reminder to the user who already solved today. Dates agree in
`envSame`, so the timezone mismatch plays no role here. -/
theorem c5_counterexample :
    Action.msgSent "7" "12:00" ∈
      (send_reminders envSame feedErr deliverAll
        (send_reminders envSame feedAc deliverAll [("7", recUtc)] "08:00").1 "12:00").2 := by
  decide

/-- C5 (amended): when the sweep for slot `s` finds the user solved, it
calls `mark_notified` for the current slot only and sends no message to
that user; the recorded mark suppresses later same-day sweeps for the
*same* slot `s` (provided the host clock's date equals the date in the
user's zone — the write uses the former, the check the latter). Sweeps
for other slots are not suppressed by this mark (see the
counterexample). -/
theorem c5_solved_marks_only_this_slot
    (env : Env) (feed : String → FeedResult) (deliver : String → Bool) (slot : String)
    (l₁ l₂ : Db) (uid : String) (r₀ : UserRecord)
    (huniq : uid ∉ (l₁ ++ l₂).map Prod.fst)
    (hh : handleFalsy r₀.handle = false)
    (hnot : recNotifiedToday env r₀ slot r₀.timezone = false)
    (hsolved : okTodayCheck env feed (r₀.handle.getD "") r₀.timezone = true) :
    dictGet (send_reminders env feed deliver (l₁ ++ (uid, r₀) :: l₂) slot).1 uid
      = some (markRec env r₀ slot)
    ∧ (∀ a ∈ (send_reminders env feed deliver (l₁ ++ (uid, r₀) :: l₂) slot).2,
        actUid a ≠ uid ∨ a = Action.feedReq uid (r₀.handle.getD ""))
    ∧ (env.sysDate env.now = env.tzDate (resolveTz env r₀.timezone) env.now →
       ∀ (feed' : String → FeedResult) (deliver' : String → Bool),
         dictGet (send_reminders env feed' deliver'
             (send_reminders env feed deliver (l₁ ++ (uid, r₀) :: l₂) slot).1 slot).1 uid
           = some (markRec env r₀ slot)
         ∧ ∀ a ∈ (send_reminders env feed' deliver'
             (send_reminders env feed deliver (l₁ ++ (uid, r₀) :: l₂) slot).1 slot).2,
             actUid a ≠ uid) := by
  have hne₁ : ∀ e ∈ l₁, e.1 ≠ uid := fun e he heq =>
    huniq (by rw [List.map_append]
              exact List.mem_append.mpr (Or.inl (List.mem_map.mpr ⟨e, he, heq⟩)))
  have hne₂ : ∀ e ∈ l₂, e.1 ≠ uid := fun e he heq =>
    huniq (by rw [List.map_append]
              exact List.mem_append.mpr (Or.inr (List.mem_map.mpr ⟨e, he, heq⟩)))
  have hlook : dictGet (l₁ ++ (uid, r₀) :: l₂) uid = some r₀ := by
    rw [dictGet_append_not_mem uid l₁ _ hne₁, dictGet, if_pos rfl]
  unfold send_reminders
  rw [List.foldl_append, List.foldl_cons]
  have hget1 : dictGet (List.foldl (sweepStep env feed deliver slot)
      (l₁ ++ (uid, r₀) :: l₂, ([] : List Action)) l₁).1 uid = some r₀ := by
    rw [sweepFold_fst_other env feed deliver slot uid l₁ _ hne₁]
    exact hlook
  have halready : already_notified_today env (List.foldl (sweepStep env feed deliver slot)
      (l₁ ++ (uid, r₀) :: l₂, ([] : List Action)) l₁).1 uid slot r₀.timezone = false := by
    rw [already_of_dictGet slot r₀.timezone hget1]
    exact hnot
  rw [sweepStep_solved env feed deliver slot _ uid r₀ hh halready hsolved]
  have hmark : dictGet (mark_notified env (List.foldl (sweepStep env feed deliver slot)
      (l₁ ++ (uid, r₀) :: l₂, ([] : List Action)) l₁).1 uid slot) uid
      = some (markRec env r₀ slot) := by
    rw [dictGet_mark_self, hget1]
    rfl
  have hc1 : dictGet (List.foldl (sweepStep env feed deliver slot)
      (mark_notified env (List.foldl (sweepStep env feed deliver slot)
          (l₁ ++ (uid, r₀) :: l₂, ([] : List Action)) l₁).1 uid slot,
        (List.foldl (sweepStep env feed deliver slot)
          (l₁ ++ (uid, r₀) :: l₂, ([] : List Action)) l₁).2
          ++ [Action.feedReq uid (r₀.handle.getD "")]) l₂).1 uid
      = some (markRec env r₀ slot) := by
    rw [sweepFold_fst_other env feed deliver slot uid l₂ _ hne₂]
    exact hmark
  have hc2 : ∀ a ∈ (List.foldl (sweepStep env feed deliver slot)
      (mark_notified env (List.foldl (sweepStep env feed deliver slot)
          (l₁ ++ (uid, r₀) :: l₂, ([] : List Action)) l₁).1 uid slot,
        (List.foldl (sweepStep env feed deliver slot)
          (l₁ ++ (uid, r₀) :: l₂, ([] : List Action)) l₁).2
          ++ [Action.feedReq uid (r₀.handle.getD "")]) l₂).2,
      actUid a ≠ uid ∨ a = Action.feedReq uid (r₀.handle.getD "") := by
    intro a ha
    rcases sweepFold_acts_tag env feed deliver slot uid l₂ _ a hne₂ ha with h1 | h1
    · rcases List.mem_append.mp h1 with h2 | h2
      · rcases sweepFold_acts_tag env feed deliver slot uid l₁ _ a hne₁ h2 with h3 | h3
        · exact absurd h3 (List.not_mem_nil a)
        · exact Or.inl h3
      · right
        simpa using h2
    · exact Or.inl h1
  refine ⟨hc1, hc2, ?_⟩
  intro hagree feed' deliver'
  have hkeys0 : ∀ e ∈ l₁ ++ (uid, r₀) :: l₂,
      e.1 ∈ (l₁ ++ (uid, r₀) :: l₂).map Prod.fst :=
    fun e he => List.mem_map.mpr ⟨e, he, rfl⟩
  have hkeys1 : (List.foldl (sweepStep env feed deliver slot)
      (l₁ ++ (uid, r₀) :: l₂, ([] : List Action)) l₁).1.map Prod.fst
      = (l₁ ++ (uid, r₀) :: l₂).map Prod.fst :=
    sweepFold_keys env feed deliver slot l₁ _
      (fun e he => hkeys0 e (List.mem_append.mpr (Or.inl he)))
  have huidmem : uid ∈ (l₁ ++ (uid, r₀) :: l₂).map Prod.fst :=
    List.mem_map.mpr ⟨(uid, r₀), List.mem_append.mpr (Or.inr (List.mem_cons_self _ _)), rfl⟩
  have hkeys2 : (mark_notified env (List.foldl (sweepStep env feed deliver slot)
      (l₁ ++ (uid, r₀) :: l₂, ([] : List Action)) l₁).1 uid slot).map Prod.fst
      = (List.foldl (sweepStep env feed deliver slot)
          (l₁ ++ (uid, r₀) :: l₂, ([] : List Action)) l₁).1.map Prod.fst :=
    keys_mark env _ uid slot (by rw [hkeys1]; exact huidmem)
  have hkeys3 : (List.foldl (sweepStep env feed deliver slot)
      (mark_notified env (List.foldl (sweepStep env feed deliver slot)
          (l₁ ++ (uid, r₀) :: l₂, ([] : List Action)) l₁).1 uid slot,
        (List.foldl (sweepStep env feed deliver slot)
          (l₁ ++ (uid, r₀) :: l₂, ([] : List Action)) l₁).2
          ++ [Action.feedReq uid (r₀.handle.getD "")]) l₂).1.map Prod.fst
      = (l₁ ++ (uid, r₀) :: l₂).map Prod.fst := by
    rw [sweepFold_keys env feed deliver slot l₂ _ ?_]
    · rw [hkeys2, hkeys1]
    · intro e he
      rw [hkeys2, hkeys1]
      exact hkeys0 e (List.mem_append.mpr (Or.inr (List.mem_cons_of_mem _ he)))
  have hcount : ((List.foldl (sweepStep env feed deliver slot)
      (mark_notified env (List.foldl (sweepStep env feed deliver slot)
          (l₁ ++ (uid, r₀) :: l₂, ([] : List Action)) l₁).1 uid slot,
        (List.foldl (sweepStep env feed deliver slot)
          (l₁ ++ (uid, r₀) :: l₂, ([] : List Action)) l₁).2
          ++ [Action.feedReq uid (r₀.handle.getD "")]) l₂).1.map Prod.fst).count uid ≤ 1 := by
    rw [hkeys3, List.map_append, List.map_cons, List.count_append, List.count_cons_self]
    have h1 : (l₁.map Prod.fst).count uid = 0 :=
      List.count_eq_zero.mpr (fun hmem =>
        huniq (by rw [List.map_append]; exact List.mem_append.mpr (Or.inl hmem)))
    have h2 : (l₂.map Prod.fst).count uid = 0 :=
      List.count_eq_zero.mpr (fun hmem =>
        huniq (by rw [List.map_append]; exact List.mem_append.mpr (Or.inr hmem)))
    omega
  have hsk : recNotifiedToday env (markRec env r₀ slot) slot
      (markRec env r₀ slot).timezone = true :=
    recNotifiedToday_markRec env r₀ slot r₀.timezone hagree
  obtain ⟨hA, hB⟩ := sweepFold_inert env feed' deliver' slot uid (markRec env r₀ slot)
    (Or.inr hsk) _ (_, ([] : List Action))
    (fun r hr => dictGet_unique hcount hc1 r hr) hc1
  exact ⟨hA, fun a ha => (hB a ha).resolve_left (List.not_mem_nil a)⟩

/-- C5 witness: with a single solved user and agreeing dates, the 08:00
sweep marks slot 08:00, and a second 08:00 sweep (feed now erroring)
leaves the record alone. -/
theorem c5_solved_marks_only_this_slot_witness :
    dictGet (send_reminders envSame feedAc deliverAll [("7", recUtc)] "08:00").1 "7"
      = some (markRec envSame recUtc "08:00")
    ∧ dictGet (send_reminders envSame feedErr deliverAll
        (send_reminders envSame feedAc deliverAll [("7", recUtc)] "08:00").1 "08:00").1 "7"
      = some (markRec envSame recUtc "08:00") :=
  ⟨(c5_solved_marks_only_this_slot envSame feedAc deliverAll "08:00" [] [] "7" recUtc
      (by decide) (by decide) (by decide) (by decide)).1,
   ((c5_solved_marks_only_this_slot envSame feedAc deliverAll "08:00" [] [] "7" recUtc
      (by decide) (by decide) (by decide) (by decide)).2.2 (by decide) feedErr deliverAll).1⟩

/-- C4 witness: user in Asia/Tashkent at 2024-01-01 20:00 UTC; the only
accepted submission was made at 19:10 UTC on 2024-01-01 — yesterday by
the local date of UTC, but already 2024-01-02 locally — and it counts as
solved today. -/
theorem c4_solved_today_iff_witness :
    "tourist" ≠ ""
    ∧ cf_has_solved_today envUtcTk "tourist" "Asia/Tashkent" respBoundary = true :=
  ⟨by decide,
   (c4_solved_today_iff envUtcTk "tourist" "Asia/Tashkent" respBoundary (by decide)).mpr
     (by refine ⟨rfl, ⟨{ verdict := some "OK", creationTimeSeconds := some 1704136200 },
           by decide, rfl, 1704136200, rfl, by decide⟩⟩)⟩

/-- C6: if the feed reports a user unsolved and delivery of the reminder
raises, the sweep does not call `mark_notified` for that user — the
stored record is exactly the one from before the sweep — and a later
sweep for the same slot on the same day (user still unsolved, messenger
recovered) delivers the reminder. -/
theorem c6_delivery_failure_leaves_record
    (env : Env) (feed : String → FeedResult) (deliver : String → Bool) (slot : String)
    (l₁ l₂ : Db) (uid : String) (r₀ : UserRecord)
    (huniq : uid ∉ (l₁ ++ l₂).map Prod.fst)
    (hh : handleFalsy r₀.handle = false)
    (hnot : recNotifiedToday env r₀ slot r₀.timezone = false)
    (hun : okTodayCheck env feed (r₀.handle.getD "") r₀.timezone = false)
    (hfail : deliver uid = false) :
    dictGet (send_reminders env feed deliver (l₁ ++ (uid, r₀) :: l₂) slot).1 uid = some r₀
    ∧ Action.msgFailed uid slot
        ∈ (send_reminders env feed deliver (l₁ ++ (uid, r₀) :: l₂) slot).2
    ∧ ∀ (feed' : String → FeedResult) (deliver' : String → Bool),
        okTodayCheck env feed' (r₀.handle.getD "") r₀.timezone = false →
        deliver' uid = true →
        Action.msgSent uid slot ∈ (send_reminders env feed' deliver'
          (send_reminders env feed deliver (l₁ ++ (uid, r₀) :: l₂) slot).1 slot).2 := by
  have hne₁ : ∀ e ∈ l₁, e.1 ≠ uid := fun e he heq =>
    huniq (by rw [List.map_append]
              exact List.mem_append.mpr (Or.inl (List.mem_map.mpr ⟨e, he, heq⟩)))
  have hne₂ : ∀ e ∈ l₂, e.1 ≠ uid := fun e he heq =>
    huniq (by rw [List.map_append]
              exact List.mem_append.mpr (Or.inr (List.mem_map.mpr ⟨e, he, heq⟩)))
  have hlook : dictGet (l₁ ++ (uid, r₀) :: l₂) uid = some r₀ := by
    rw [dictGet_append_not_mem uid l₁ _ hne₁, dictGet, if_pos rfl]
  unfold send_reminders
  rw [List.foldl_append, List.foldl_cons]
  have hget1 : dictGet (List.foldl (sweepStep env feed deliver slot)
      (l₁ ++ (uid, r₀) :: l₂, ([] : List Action)) l₁).1 uid = some r₀ := by
    rw [sweepFold_fst_other env feed deliver slot uid l₁ _ hne₁]
    exact hlook
  have halready : already_notified_today env (List.foldl (sweepStep env feed deliver slot)
      (l₁ ++ (uid, r₀) :: l₂, ([] : List Action)) l₁).1 uid slot r₀.timezone = false := by
    rw [already_of_dictGet slot r₀.timezone hget1]
    exact hnot
  rw [sweepStep_failed env feed deliver slot _ uid r₀ hh halready hun hfail]
  have hc1 : dictGet (List.foldl (sweepStep env feed deliver slot)
      ((List.foldl (sweepStep env feed deliver slot)
          (l₁ ++ (uid, r₀) :: l₂, ([] : List Action)) l₁).1,
        (List.foldl (sweepStep env feed deliver slot)
          (l₁ ++ (uid, r₀) :: l₂, ([] : List Action)) l₁).2
          ++ [Action.feedReq uid (r₀.handle.getD ""), Action.msgFailed uid slot]) l₂).1 uid
      = some r₀ := by
    rw [sweepFold_fst_other env feed deliver slot uid l₂ _ hne₂]
    exact hget1
  refine ⟨hc1, ?_, ?_⟩
  · apply sweepFold_acts_sub
    simp
  · intro feed' deliver' hun' hdel'
    exact sweep_sends env feed' deliver' slot _ uid r₀ hc1 hh hnot hun' hdel'

/-- C6 witness: single unsolved user, delivery raising during the first
sweep, succeeding during the second: record untouched, then delivered. -/
theorem c6_delivery_failure_leaves_record_witness :
    dictGet (send_reminders envSame feedNone deliverNone [("7", recUtc)] "08:00").1 "7"
      = some recUtc
    ∧ Action.msgSent "7" "08:00" ∈ (send_reminders envSame feedNone deliverAll
        (send_reminders envSame feedNone deliverNone [("7", recUtc)] "08:00").1 "08:00").2 :=
  ⟨(c6_delivery_failure_leaves_record envSame feedNone deliverNone "08:00" [] [] "7" recUtc
      (by decide) (by decide) (by decide) (by decide) (by decide)).1,
   (c6_delivery_failure_leaves_record envSame feedNone deliverNone "08:00" [] [] "7" recUtc
      (by decide) (by decide) (by decide) (by decide) (by decide)).2.2
      feedNone deliverAll (by decide) (by decide)⟩

/-- C7: `/settz` with a timezone name outside the IANA list replies with
the rejection message and returns the database unchanged — in particular
the invoking user's stored timezone is untouched. -/
theorem c7_settz_invalid_rejected (env : Env) (db : Db) (uid tz_name : String)
    (rest : List String) (hbad : tz_name ∉ env.allTimezones) :
    cmd_settz env db uid (tz_name :: rest) = (db, Reply.invalidTz) := by
  simp [cmd_settz, hbad]

/-- C7 witness: `"Mars/Phobos"` is rejected and the record store is
returned unchanged. -/
theorem c7_settz_invalid_rejected_witness :
    cmd_settz envUtcTk [("u", recUtc)] "u" ["Mars/Phobos"]
      = ([("u", recUtc)], Reply.invalidTz) :=
  c7_settz_invalid_rejected envUtcTk [("u", recUtc)] "u" "Mars/Phobos" [] (by decide)

/-- Observational equality of optional records used by the round-trip
claim: same handle, same timezone, and the same stored date for every
slot. -/
def recOptEquiv : Option UserRecord → Option UserRecord → Prop
  | none, none => True
  | some r', some r =>
      r'.handle = r.handle ∧ r'.timezone = r.timezone ∧ ∀ s, lnGet r' s = lnGet r s
  | some _, none => False
  | none, some _ => False

/-- C8: saving the whole record store and loading it back yields, for
every user id, a record with identical handle, timezone and
`lastNotified` mapping (a `None` history is reloaded as the empty dict,
which stores the same dates for every slot). -/
theorem c8_save_load_roundtrip (env : Env) (db : Db) (uid : String) :
    recOptEquiv (dictGet (load_db env (save_db db)) uid) (dictGet db uid) := by
  unfold load_db save_db
  rw [dictGet_map (loadRec env) uid, dictGet_map to_dict uid]
  cases h : dictGet db uid with
  | none => simp [recOptEquiv]
  | some r =>
    show recOptEquiv (some (loadRec env (to_dict r))) (some r)
    simp only [recOptEquiv]
    exact ⟨rfl, rfl, fun s => rfl⟩

/-- C9: a user record without a handle is skipped by the sweep: no
feed request is issued and no message attempted for that user, and
their stored record is unchanged. -/
theorem c9_no_handle_skipped (env : Env) (feed : String → FeedResult)
    (deliver : String → Bool) (slot : String) (db : Db) (uid : String) (r₀ : UserRecord)
    (hrec : ∀ r, (uid, r) ∈ db → r = r₀)
    (hlook : dictGet db uid = some r₀)
    (hh : r₀.handle = none) :
    dictGet (send_reminders env feed deliver db slot).1 uid = some r₀
    ∧ ∀ a ∈ (send_reminders env feed deliver db slot).2, actUid a ≠ uid := by
  have hskip : handleFalsy r₀.handle = true := by rw [hh]; rfl
  unfold send_reminders
  obtain ⟨hA, hB⟩ := sweepFold_inert env feed deliver slot uid r₀ (Or.inl hskip)
    db (db, []) hrec hlook
  exact ⟨hA, fun a ha => (hB a ha).resolve_left (List.not_mem_nil a)⟩

/-- C9 witness: the handle-less record is untouched by a sweep. -/
theorem c9_no_handle_skipped_witness :
    dictGet (send_reminders envSame feedErr deliverAll [("9", recNoHandle)] "08:00").1 "9"
      = some recNoHandle :=
  (c9_no_handle_skipped envSame feedErr deliverAll "08:00" [("9", recNoHandle)] "9"
    recNoHandle (fun r hr => congrArg Prod.snd (List.mem_singleton.mp hr))
    (by decide) rfl).1

/-- C10: `mark_notified(u, s)` only touches the `s` entry of `u`'s
`lastNotified`: the updated record keeps the handle, the timezone, and
the stored date of every other slot, and every other user's stored
record is unchanged. -/
theorem c10_mark_frame (env : Env) (db : Db) (uid slot : String) (r₀ : UserRecord)
    (hlook : dictGet db uid = some r₀) :
    (∃ r', dictGet (mark_notified env db uid slot) uid = some r'
        ∧ r'.handle = r₀.handle ∧ r'.timezone = r₀.timezone
        ∧ ∀ s', s' ≠ slot → lnGet r' s' = lnGet r₀ s')
    ∧ ∀ uid', uid' ≠ uid →
        dictGet (mark_notified env db uid slot) uid' = dictGet db uid' := by
  constructor
  · refine ⟨markRec env r₀ slot, ?_, rfl, rfl, ?_⟩
    · rw [dictGet_mark_self, hlook]
      rfl
    · intro s' hs'
      show dictGet (setAssoc (r₀.last_notified.getD []) slot (env.sysDate env.now)) s'
          = dictGet (r₀.last_notified.getD []) s'
      exact dictGet_setAssoc_ne slot s' (env.sysDate env.now) hs' _
  · intro uid' h
    exact dictGet_mark_ne env db uid slot uid' h

/-- C10 witness: marking user `"u"` leaves user `"v"`'s lookup result
unchanged. -/
theorem c10_mark_frame_witness :
    dictGet (mark_notified envSame [("u", recUtc)] "u" "12:00") "v"
      = dictGet [("u", recUtc)] "v" :=
  (c10_mark_frame envSame [("u", recUtc)] "u" "12:00" recUtc (by decide)).2 "v" (by decide)

end CFStreakBot
